import Mathlib

/-!
Verification development for the game_automation_script repository.

Shallow embedding of the core components:
* `AutomationScript` — the step interpreter of `src/automation_script.py`
  (`run_script`, `_execute_condition`, `_execute_loop`/`_execute_count_loop`,
  `_execute_end_loop`, `_resolve_value`);
* `EventPlayer`  — the timed replay scheduler of `src/event_player.py`
  (`start_playback`, `stop_playback`, `_playback_loop`);
* `InputPlayer`  — the replay scheduler variant of `src/core/player.py`
  (`start_playback`, `set_speed`).

Python machine values are modelled by `PyVal` (JSON-style values: strings,
integers, booleans, lists, string-keyed maps), Python floats used for
timestamps and speeds by `ℚ`, Python list indexing (with negative wrap-around)
by `pyGet`/`pyIndex`, and exceptions that escape a function by `Except`.
The interpreter's run loop is a fuel-indexed step function: `none` means the
run did not finish within the given fuel.
-/

namespace AutomationScript

/-- A Python value as it appears in script data and the variable bag:
scalar (string/int/bool), list, or string-keyed dict (keys are strings in
all scripts, which are JSON data). Floats are not needed by the resolver
claims and are omitted. -/
inductive PyVal where
  | str (s : String)
  | int (n : Int)
  | bool (b : Bool)
  | list (xs : List PyVal)
  | dict (entries : List (String × PyVal))

/-- An exception escaping `_resolve_value` (the kinds its `except` clauses
fail to catch). -/
inductive PyErr where
  | typeError
  | keyError
deriving DecidableEq

mutual

/-- Python `repr` of a value (string quoting simplified: no escape
sequences inside string contents, which no claim exercises). -/
def pyRepr : PyVal → String
  | .str s => "'" ++ s ++ "'"
  | .int n => toString n
  | .bool b => if b then "True" else "False"
  | .list xs => "[" ++ String.intercalate ", " (pyReprList xs) ++ "]"
  | .dict es => "\x7b" ++ String.intercalate ", " (pyReprEntries es) ++ "\x7d"

/-- Python `repr` applied to each element of a list. -/
def pyReprList : List PyVal → List String
  | [] => []
  | v :: vs => pyRepr v :: pyReprList vs

/-- Python `repr` applied to each key/value pair of a dict. -/
def pyReprEntries : List (String × PyVal) → List String
  | [] => []
  | (k, v) :: es => ("'" ++ k ++ "': " ++ pyRepr v) :: pyReprEntries es

end

/-- Python `str` of a value: a string is itself, anything else as `repr`. -/
def pyStr : PyVal → String
  | .str s => s
  | v => pyRepr v

/-- Whether a value is a Python `str` (the `isinstance(value, str)` test in
`_resolve_value`). -/
def isStrVal : PyVal → Bool
  | .str _ => true
  | _ => false

/-- Whether a value is a Python `dict`. -/
def isDictVal : PyVal → Bool
  | .dict _ => true
  | _ => false

/-- Lookup in a Python dict (string-keyed, first binding wins; keys are
unique in dicts built by the scripts). -/
def assocLookup {β : Type} : List (String × β) → String → Option β
  | [], _ => none
  | (k, v) :: rest, key => if k = key then some v else assocLookup rest key

/-- Python dict assignment `d[k] = v`: update the binding in place if the
key is present, otherwise append it. -/
def assocUpdate {β : Type} : List (String × β) → String → β → List (String × β)
  | [], key, v => [(key, v)]
  | (k, w) :: rest, key, v =>
      if k = key then (k, v) :: rest else (k, w) :: assocUpdate rest key v

/-- Python `del d[k]`. -/
def assocErase {β : Type} : List (String × β) → String → List (String × β)
  | [], _ => []
  | (k, w) :: rest, key => if k = key then rest else (k, w) :: assocErase rest key

/-- Python sequence indexing `xs[i]` with negative wrap-around; `none` is
an `IndexError`. -/
def pyIndex {α : Type} (xs : List α) (i : Int) : Option α :=
  if 0 ≤ i ∧ i < (xs.length : Int) then xs.get? i.toNat
  else if -(xs.length : Int) ≤ i ∧ i < 0 then xs.get? (i + xs.length).toNat
  else none

/-- Digits of a decimal literal to a natural number; `none` on a malformed
literal (the `ValueError` of `int(...)`). -/
def parseDigits (cs : List Char) : Option Nat :=
  if cs ≠ [] ∧ cs.all Char.isDigit then
    some (cs.foldl (fun acc c => acc * 10 + (c.toNat - 48)) 0)
  else none

/-- Python `int(s)` on a string (given as its characters): optional
surrounding whitespace, optional sign, decimal digits (digit-group
underscores are not modelled; no script uses them). `none` models the
`ValueError`. -/
def pyParseInt (s : List Char) : Option Int :=
  match ((s.dropWhile Char.isWhitespace).reverse.dropWhile Char.isWhitespace).reverse with
  | '+' :: cs => (parseDigits cs).map (fun n => (n : Int))
  | '-' :: cs => (parseDigits cs).map (fun n => -(n : Int))
  | cs => (parseDigits cs).map (fun n => (n : Int))

/-- Model of `re.split(r'[\.\[]', var_path)`: split the expression on every `.`
and `[`, keeping empty segments, accumulator is the current segment
reversed. -/
def splitPartsAux : List Char → List Char → List (List Char)
  | cur, [] => [cur.reverse]
  | cur, c :: rest =>
      if c = '.' ∨ c = '[' then
        cur.reverse :: splitPartsAux [] rest
      else splitPartsAux (c :: cur) rest

/-- Split an accessor expression into the base name followed by the
accessor parts, exactly as `re.split(r'[\.\[]', var_path)`. -/
def splitParts (cs : List Char) : List (List Char) := splitPartsAux [] cs

/-- The original text of a placeholder, `match.group(0)`. -/
def origOf (expr : List Char) : List Char := '$' :: '{' :: expr ++ ['}']

/-- The accessor-chain loop of `replace_var` in `_resolve_value`: walk the
parts left to right.  A part ending in `]` is a sequence index: a
non-integer index (`ValueError`) or out-of-range index (`IndexError`) is
caught and yields the original placeholder text, but subscripting a dict
raises an uncaught `KeyError` and subscripting a scalar an uncaught
`TypeError` (the clause catches only `ValueError, IndexError`).  Any other
part is a dict key: `KeyError`/`TypeError` there are caught and yield the
original text.  An exhausted chain yields `str(result)`. -/
def applyChain (orig : List Char) : PyVal → List (List Char) → Except PyErr (List Char)
  | v, [] => .ok (pyStr v).toList
  | v, p :: ps =>
      if p.getLast? = some ']' then
        match pyParseInt p.dropLast with
        | none => .ok orig
        | some i =>
          match v with
          | .list xs =>
            match pyIndex xs i with
            | some w => applyChain orig w ps
            | none => .ok orig
          | .str s =>
            match pyIndex s.toList i with
            | some c => applyChain orig (.str (String.mk [c])) ps
            | none => .ok orig
          | .dict _ => .error .keyError
          | .int _ => .error .typeError
          | .bool _ => .error .typeError
      else
        match v with
        | .dict es =>
          match assocLookup es (String.mk p) with
          | some w => applyChain orig w ps
          | none => .ok orig
        | _ => .ok orig

/-- Model of `replace_var` in `_resolve_value`: split the expression, look the base
name up in the variable bag (a missing name yields the original text),
then walk the accessor chain. -/
def replaceVar (vars : List (String × PyVal)) (expr : List Char) : Except PyErr (List Char) :=
  match splitParts expr with
  | [] => .ok (origOf expr)
  | base :: rest =>
    match assocLookup vars (String.mk base) with
    | none => .ok (origOf expr)
    | some v => applyChain (origOf expr) v rest

/-- A token of the template string: a literal character, or one
placeholder `$\x7bexpr\x7d` with non-empty `expr` (the regex is
`\$\x7b([^\x7d]+)\x7d`). -/
inductive Tok where
  | lit (c : Char)
  | ph (expr : List Char)

/-- Scanner state while locating placeholders left to right, mirroring the
regex scan of `re.sub`: outside any candidate match, just after a `$`, or
inside `$\x7b...` accumulating the expression (reversed). -/
inductive ScanSt where
  | outside
  | sawDollar
  | inside (acc : List Char)

/-- Left-to-right scan of the template string for occurrences of the
pattern, exactly as `re.sub(r'\$\x7b([^\x7d]+)\x7d', ...)` finds them: a
match starts at `$\x7b`, its expression is everything up to the first
`\x7d` and must be non-empty; text that is not part of a match is kept
literally. -/
def scanAux : ScanSt → List Char → List Tok
  | .outside, [] => []
  | .outside, c :: rest =>
      if c = '$' then scanAux .sawDollar rest else .lit c :: scanAux .outside rest
  | .sawDollar, [] => [.lit '$']
  | .sawDollar, c :: rest =>
      if c = '{' then scanAux (.inside []) rest
      else if c = '$' then .lit '$' :: scanAux .sawDollar rest
      else .lit '$' :: .lit c :: scanAux .outside rest
  | .inside acc, [] => .lit '$' :: .lit '{' :: acc.reverse.map .lit
  | .inside acc, c :: rest =>
      if c = '}' then
        if acc = [] then .lit '$' :: .lit '{' :: .lit '}' :: scanAux .outside rest
        else .ph acc.reverse :: scanAux .outside rest
      else scanAux (.inside (c :: acc)) rest

/-- Substitute every placeholder token; an exception raised while
resolving one placeholder aborts the whole substitution (as it escapes
`re.sub`). -/
def resolveToks (vars : List (String × PyVal)) : List Tok → Except PyErr (List Char)
  | [] => .ok []
  | .lit c :: ts =>
    match resolveToks vars ts with
    | .ok t => .ok (c :: t)
    | .error e => .error e
  | .ph e :: ts =>
    match replaceVar vars e with
    | .error er => .error er
    | .ok r =>
      match resolveToks vars ts with
      | .ok t => .ok (r ++ t)
      | .error e => .error e

/-- Model of `re.sub(pattern, replace_var, value)` over the characters of the
string. -/
def resolveChars (vars : List (String × PyVal)) (cs : List Char) : Except PyErr (List Char) :=
  resolveToks vars (scanAux .outside cs)

/-- Model of `AutomationScript._resolve_value`: a non-string value is returned
unchanged; a string has each `$\x7b...\x7d` placeholder resolved against
the variable bag. -/
def resolve_value (vars : List (String × PyVal)) : PyVal → Except PyErr PyVal
  | .str s =>
    match resolveChars vars s.toList with
    | .ok cs => .ok (.str (String.mk cs))
    | .error e => .error e
  | v => .ok v

/-! ### The step interpreter (`AutomationScript.run_script` and the step
handlers it drives).

The embedded fragment covers the step kinds the claims exercise: plain
action steps (click, key, wait, ... — their outside-world effect is
irrelevant here, only the boolean outcome their handler returns), the
`condition` step, the `count` variant of the `loop` step, and the
`end_loop` step.  The `while` loop variant and the mutation steps are not
reached by any claim and are left out of the `StepKind` sum. -/

/-- One active count-loop frame, an entry of `self.loop_counters` (the
`"type": "count"` shape built by `_execute_count_loop`). -/
structure Counter where
  current : Int
  total : Int
  startStep : Int
deriving DecidableEq

/-- The kind-specific payload of a step.  `action b` stands for any plain
step whose handler returns outcome `b`; `condition c t e` is a `condition`
step whose externally evaluated predicate is `c`, with the optional
`then_step`/`else_step` fields; `loopCount` is a `loop` step of
`loop_type = "count"` with its resolved `count` and optional `end_step`;
`endLoop` is an `end_loop` step with its `loop_id`. -/
inductive StepKind where
  | action (succeeds : Bool)
  | condition (cond : Bool) (thenStep elseStep : Option Int)
  | loopCount (loopId : String) (count : Int) (endStep : Option Int)
  | endLoop (loopId : String)
deriving DecidableEq

/-- A script step: its kind, the `enabled` flag, and the generic jump
fields `next_step` / `on_failure` read by `run_script` (absent or
`None` both modelled as `none`). -/
structure Step where
  kind : StepKind
  enabled : Bool
  nextStep : Option Int
  onFailure : Option Int
deriving DecidableEq

/-- The interpreter state: the loaded step list and the mutable fields of
`AutomationScript` (`running`, `paused`, `current_step`, `variables`,
`loop_counters`).  `current_step` is a Python `int`, hence `Int`. -/
structure ScriptState where
  steps : List Step
  running : Bool
  paused : Bool
  currentStep : Int
  vars : List (String × PyVal)
  loops : List (String × Counter)

/-- Python list indexing `steps[i]` (negative indices wrap; `none` is the
`IndexError` that would escape into `run_script`'s `except` clause). -/
def pyGet {α : Type} (xs : List α) (i : Int) : Option α :=
  if 0 ≤ i ∧ i < (xs.length : Int) then xs.get? i.toNat
  else if -(xs.length : Int) ≤ i ∧ i < 0 then xs.get? (i + xs.length).toNat
  else none

/-- Model of `_execute_count_loop`: create the counter on first visit with
`current = 0`; if `current >= total`, jump to `end_step` (when given) and
delete the counter, otherwise increment `current`.  Always returns
success. -/
def execCountLoop (loopId : String) (count : Int) (endStep : Option Int)
    (s : ScriptState) : Bool × ScriptState :=
  let loops0 :=
    match assocLookup s.loops loopId with
    | some _ => s.loops
    | none => assocUpdate s.loops loopId ⟨0, count, s.currentStep⟩
  match assocLookup loops0 loopId with
  | none => (true, { s with loops := loops0 })
  | some ctr =>
    if ctr.total ≤ ctr.current then
      let s1 :=
        match endStep with
        | some es => { s with currentStep := es }
        | none => s
      (true, { s1 with loops := assocErase loops0 loopId })
    else
      (true, { s with loops := assocUpdate loops0 loopId { ctr with current := ctr.current + 1 } })

/-- Model of `_execute_end_loop`: an empty `loop_id` is an error (returns failure);
otherwise, if a still-active count frame exists with `current < total`,
set `current_step` back to the recorded `start_step`; with no frame fall
through.  (The `while` branch of the source always jumps back; `while`
frames are not modelled since no claim builds one.) -/
def execEndLoop (loopId : String) (s : ScriptState) : Bool × ScriptState :=
  if loopId = "" then (false, s)
  else
    match assocLookup s.loops loopId with
    | some ctr =>
      if ctr.current < ctr.total then (true, { s with currentStep := ctr.startStep })
      else (true, s)
    | none => (true, s)

/-- Model of `_execute_step` for the embedded step kinds.  A `condition` step whose
predicate was evaluated stores `then_step - 1` (resp. `else_step - 1`)
into `current_step` — the source comment notes the `- 1` compensates the
`+ 1` applied after every loop iteration — and returns success. -/
def execStep (st : Step) (s : ScriptState) : Bool × ScriptState :=
  match st.kind with
  | .action b => (b, s)
  | .condition c t e =>
    if c then
      match t with
      | some v => (true, { s with currentStep := v - 1 })
      | none => (true, s)
    else
      match e with
      | some v => (true, { s with currentStep := v - 1 })
      | none => (true, s)
  | .loopCount loopId count endStep => execCountLoop loopId count endStep s
  | .endLoop loopId => execEndLoop loopId s

/-- The next-index resolution at the bottom of `run_script`'s loop: on
success an explicit non-`None` `next_step` wins, else advance by one; on
failure an explicit non-`None` `on_failure` wins, else advance by one. -/
def applyJump (st : Step) (success : Bool) (s : ScriptState) : ScriptState :=
  if success then
    match st.nextStep with
    | some ns => { s with currentStep := ns }
    | none => { s with currentStep := s.currentStep + 1 }
  else
    match st.onFailure with
    | some f => { s with currentStep := f }
    | none => { s with currentStep := s.currentStep + 1 }

/-- One iteration of `run_script`'s `while` loop.  `Sum.inl (r, s)` means
the loop exits and the `try` block produces return value `r` (`false`
only for the `IndexError` escaping the step fetch, handled by the
`except` clause); `Sum.inr (v, s)` means the loop continues, `v` being
the index whose step handler ran (`none` for a disabled step or a
pause-poll slice, which execute nothing). -/
def iter (s : ScriptState) : Sum (Bool × ScriptState) (Option Int × ScriptState) :=
  if s.running = true ∧ s.currentStep < (s.steps.length : Int) then
    if s.paused = true then Sum.inr (none, s)
    else
      match pyGet s.steps s.currentStep with
      | none => Sum.inl (false, s)
      | some st =>
        if st.enabled = false then Sum.inr (none, { s with currentStep := s.currentStep + 1 })
        else
          let p := execStep st s
          Sum.inr (some s.currentStep, applyJump st p.1 p.2)
  else Sum.inl (true, s)

/-- Fuel-indexed iteration of the run loop.  Returns the `try` block's
return value, the state at loop exit, and the list of step indices whose
handlers ran (in order); `none` means the loop did not exit within
`fuel` iterations. -/
def runAux : Nat → ScriptState → Option (Bool × ScriptState × List Int)
  | 0, _ => none
  | fuel + 1, s =>
    match iter s with
    | Sum.inl r => some (r.1, r.2, [])
    | Sum.inr c =>
      Option.map (fun out => (out.1, out.2.1, c.1.toList ++ out.2.2)) (runAux fuel c.2)

/-- The result of one `run_script` call: the returned boolean, the final
state, the executed step indices, and the arguments of the
`on_script_end` calls made (at most one per run). -/
structure RunOutcome where
  ret : Bool
  final : ScriptState
  visited : List Int
  endCalls : List Bool

/-- Model of `AutomationScript.run_script`: an empty step list returns `False` at
once, before `running` is set and without any callback; otherwise
`running`/`paused`/`current_step`/`variables`/`loop_counters` are
(re)initialised unconditionally — there is no busy check — the loop runs,
`on_script_end` fires with the outcome, and `finally` clears `running`. -/
def run_script (s0 : ScriptState) (fromStep : Int) (fuel : Nat) : Option RunOutcome :=
  if s0.steps.isEmpty then some ⟨false, s0, [], []⟩
  else
    Option.map
      (fun out => ⟨out.1, { out.2.1 with running := false }, out.2.2, [out.1]⟩)
      (runAux fuel
        { s0 with running := true, paused := false, currentStep := fromStep,
                  vars := [], loops := [] })

end AutomationScript

namespace EventPlayer

/-- A recorded event as `EventPlayer` consumes it: only its relative
timestamp `event["time"]` matters to the scheduling claims (the payload
goes to an external input sink). -/
structure PEvent where
  time : ℚ
deriving DecidableEq

/-- The mutable fields of `EventPlayer`: `playing`, `paused`, the
`_stop_event` flag, the loaded events, the speed, plus bookkeeping for
the claims — how many times the `on_stop` callback has been invoked and
whether the playback thread is still alive (so that `join` has a thread
to wait for). -/
structure EPState where
  playing : Bool
  paused : Bool
  stopEvent : Bool
  events : List PEvent
  speed : ℚ
  onStopCalls : Nat
  threadAlive : Bool
deriving DecidableEq

/-- Model of `EventPlayer.start_playback`: rejected while `playing` (returns
`False`, state untouched); rejected with no events; otherwise the given
speed (when not `None`) is stored unclamped, state is reset and the
playback thread started. -/
def start_playback (s : EPState) (speed : Option ℚ) : Bool × EPState :=
  if s.playing then (false, s)
  else if s.events.isEmpty then (false, s)
  else
    (true, { s with speed := speed.getD s.speed, playing := true, paused := false,
                    stopEvent := false, threadAlive := true })

/-- The `finally` block of `_playback_loop`, run when the playback thread
ends (naturally or after observing the stop flag): clear `playing` and
invoke `on_stop`. -/
def playbackFinally (s : EPState) : EPState :=
  { s with playing := false, threadAlive := false, onStopCalls := s.onStopCalls + 1 }

/-- Model of `EventPlayer.stop_playback`: a no-op returning `False` when not
playing; otherwise set the stop flag, clear `playing`, `join` the
playback thread — during which that thread runs its `finally` block,
firing `on_stop` once — and then invoke `on_stop` again itself. -/
def stop_playback (s : EPState) : Bool × EPState :=
  if s.playing = false then (false, s)
  else
    let s1 := { s with stopEvent := true, playing := false }
    let s2 := if s1.threadAlive then playbackFinally s1 else s1
    (true, { s2 with onStopCalls := s2.onStopCalls + 1, threadAlive := false })

/-- The sleeps `_playback_loop` performs before dispatching an event with
timestamp `t`, the previous event's timestamp being `lastTime`: one
single `time.sleep` of `(t - lastTime) / speed` when that is positive,
nothing otherwise.  The wait is not sliced. -/
def waitSleeps (lastTime t speed : ℚ) : List ℚ :=
  let w := (t - lastTime) / speed
  if 0 < w then [w] else []

/-- All sleeps of one playback over the given event timestamps
(`last_event_time` starts at `0`). -/
def playbackSleeps (speed : ℚ) : ℚ → List ℚ → List ℚ
  | _, [] => []
  | lastT, t :: ts => waitSleeps lastT t speed ++ playbackSleeps speed t ts

end EventPlayer

namespace InputPlayer

/-- A recorded event as `core/player.py` consumes it: only its timestamp
matters here. -/
structure IEvent where
  timestamp : ℚ
deriving DecidableEq

/-- The mutable fields of `InputPlayer`. -/
structure IPState where
  events : List IEvent
  playing : Bool
  paused : Bool
  speed : ℚ
  currentIndex : Nat
deriving DecidableEq

/-- The clamp `max(0.1, min(10.0, speed))` used by `InputPlayer`. -/
def clampSpeed (speed : ℚ) : ℚ := max (1 / 10) (min 10 speed)

/-- Model of `InputPlayer.start_playback`: rejected while `playing` or with no
events; otherwise resets the cursor and stores the clamped speed. -/
def start_playback (s : IPState) (speed : ℚ) : Bool × IPState :=
  if s.playing then (false, s)
  else if s.events.isEmpty then (false, s)
  else
    (true, { s with playing := true, paused := false, currentIndex := 0,
                    speed := clampSpeed speed })

/-- Model of `InputPlayer.set_speed`: store the clamped speed. -/
def set_speed (s : IPState) (speed : ℚ) : IPState :=
  { s with speed := clampSpeed speed }

end InputPlayer

open AutomationScript EventPlayer InputPlayer

/-! ### Concrete programs and states used by the claims' witnesses and
counterexamples. -/

/-- A count loop of total `2` around a one-step body: step 0 is the loop
start (`end_step = 2`), step 1 the body, step 2 the matching `end_loop`. -/
def countLoopProg (n : Int) : List AutomationScript.Step :=
  [⟨.loopCount "L" n (some 2), true, none, none⟩,
   ⟨.action true, true, none, none⟩,
   ⟨.endLoop "L", true, none, none⟩]

/-- Idle interpreter state holding the count-loop program with total `n`. -/
def countLoopState (n : Int) : AutomationScript.ScriptState :=
  ⟨countLoopProg n, false, false, 0, [], []⟩

/-- The state the count-loop run (total `2`) is in when it first reaches
the body: the counter was created and incremented to `1`. -/
def countLoopBody : AutomationScript.ScriptState :=
  ⟨countLoopProg 2, true, false, 1, [], [("L", ⟨1, 2, 0⟩)]⟩

/-- The same run one step later, at the `end_loop` step. -/
def countLoopAtEnd : AutomationScript.ScriptState :=
  ⟨countLoopProg 2, true, false, 2, [], [("L", ⟨1, 2, 0⟩)]⟩

/-- A condition step branching on `true`, `then_step = 2`, `else_step = 3`,
and additionally a `next_step = 4` jump field on the same step. -/
def condNextProg : List AutomationScript.Step :=
  [⟨.condition true (some 2) (some 3), true, some 4, none⟩,
   ⟨.action true, true, none, none⟩,
   ⟨.action true, true, none, none⟩,
   ⟨.action true, true, none, none⟩,
   ⟨.action true, true, none, none⟩]

/-- Idle interpreter state holding `condNextProg`. -/
def condNextState : AutomationScript.ScriptState :=
  ⟨condNextProg, false, false, 0, [], []⟩

/-- A running state whose current step is a condition step (branch `true`,
`then_step = 2`, `else_step = 3`) with no `next_step`. -/
def condPlainState : AutomationScript.ScriptState :=
  ⟨[⟨.condition true (some 2) (some 3), true, none, none⟩,
    ⟨.action true, true, none, none⟩,
    ⟨.action true, true, none, none⟩],
   true, false, 0, [], []⟩

/-- An interpreter state in the middle of an active run: `running` is set,
the variable bag is non-empty. -/
def busyScriptState : AutomationScript.ScriptState :=
  ⟨[⟨.action true, true, none, none⟩], true, false, 0, [("x", .int 1)], []⟩

/-- The empty-script state for the `run_script` early-return claim. -/
def emptyScriptState : AutomationScript.ScriptState :=
  ⟨[], false, false, 0, [("keep", .int 9)], []⟩

/-- A two-action sequential program (all jump policies `Sequential`). -/
def seqTwoState : AutomationScript.ScriptState :=
  ⟨[⟨.action true, true, none, none⟩, ⟨.action false, true, none, none⟩],
   false, false, 0, [], []⟩

/-- An `EventPlayer` session that is playing with a live playback thread
and no `on_stop` invocation yet. -/
def playingEP : EventPlayer.EPState :=
  ⟨true, false, false, [⟨0⟩], 1, 0, true⟩

/-- An idle `EventPlayer` with one loaded event, ready to start. -/
def idleEP : EventPlayer.EPState :=
  ⟨false, false, false, [⟨0⟩], 1, 0, false⟩

/-- An idle `InputPlayer` with one loaded event, ready to start. -/
def idleIP : InputPlayer.IPState :=
  ⟨[⟨0⟩], false, false, 1, 0⟩

/-! ### Helper lemmas -/

theorem pyGet_lt {α : Type} (xs : List α) (i : Int) (a : α)
    (h : AutomationScript.pyGet xs i = some a) : i < (xs.length : Int) := by
  unfold AutomationScript.pyGet at h
  split_ifs at h with h1 h2
  · exact h1.2
  · exact lt_of_lt_of_le h2.2 (Int.natCast_nonneg _)

theorem pyGet_natCast {α : Type} (xs : List α) (m : Nat) (h : m < xs.length) :
    AutomationScript.pyGet xs (m : Int) = xs.get? m := by
  unfold AutomationScript.pyGet
  rw [if_pos ⟨Int.natCast_nonneg m, by exact_mod_cast h⟩]
  simp

/-- The "all jump policies `Sequential`" shape of a step: a plain action
step, enabled, with neither `next_step` nor `on_failure`. -/
def isSeqStep (st : AutomationScript.Step) : Bool :=
  (match st.kind with | .action _ => true | _ => false)
    && st.enabled && st.nextStep.isNone && st.onFailure.isNone

theorem isSeqStep_spec (st : AutomationScript.Step) (h : isSeqStep st = true) :
    (∃ b, st.kind = .action b) ∧ st.enabled = true ∧
      st.nextStep = none ∧ st.onFailure = none := by
  obtain ⟨k, e, ns, nf⟩ := st
  simp only [isSeqStep, Bool.and_eq_true, Option.isNone_iff_eq_none] at h
  obtain ⟨⟨⟨hk, he⟩, hns⟩, hnf⟩ := h
  cases k with
  | action b => exact ⟨⟨b, rfl⟩, he, hns, hnf⟩
  | condition c t e2 => simp at hk
  | loopCount a b c2 => simp at hk
  | endLoop a => simp at hk

theorem iter_seq (s : AutomationScript.ScriptState) (st : AutomationScript.Step)
    (hrun : s.running = true) (hp : s.paused = false)
    (hget : AutomationScript.pyGet s.steps s.currentStep = some st)
    (hseq : isSeqStep st = true) :
    AutomationScript.iter s =
      Sum.inr (some s.currentStep, { s with currentStep := s.currentStep + 1 }) := by
  obtain ⟨⟨b, hk⟩, he, hns, hnf⟩ := isSeqStep_spec st hseq
  have hlt : s.currentStep < (s.steps.length : Int) := pyGet_lt _ _ _ hget
  unfold AutomationScript.iter
  rw [if_pos ⟨hrun, hlt⟩, if_neg (by simp [hp]), hget]
  cases b <;>
    simp [he, hk, AutomationScript.execStep, AutomationScript.applyJump, hns, hnf]

/-! ### Claim theorems -/

/-- C10: `run_script` on a script whose step list is empty returns `False`
immediately — no step executes, the state (hence the `running` flag) is
untouched, and `on_script_end` is never invoked. -/
theorem c10_empty_script :
    ∀ (s0 : AutomationScript.ScriptState) (fromStep : Int) (fuel : Nat),
      s0.steps = [] →
      AutomationScript.run_script s0 fromStep fuel = some ⟨false, s0, [], []⟩ := by
  intro s0 fromStep fuel h
  simp [AutomationScript.run_script, h]

/-- Witness for C10 at a concrete state with a non-empty variable bag. -/
theorem c10_empty_script_witness :
    AutomationScript.run_script emptyScriptState 3 7 =
      some ⟨false, emptyScriptState, [], []⟩ :=
  c10_empty_script emptyScriptState 3 7 rfl

/-- C8: the resolver's concrete contract — `$\x7ba.b\x7d` with
`a = \x7b"b": 5\x7d` yields `"5"`; `$\x7ba[1]\x7d` with `a = [10,20,30]`
yields `"20"`; `$\x7bmissing\x7d` with no such variable stays literal;
and any non-string value is returned unchanged. -/
theorem c8_resolve_examples :
    (AutomationScript.resolve_value [("a", .dict [("b", .int 5)])]
        (.str "$\x7ba.b\x7d") = .ok (.str "5")) ∧
    (AutomationScript.resolve_value [("a", .list [.int 10, .int 20, .int 30])]
        (.str "$\x7ba[1]\x7d") = .ok (.str "20")) ∧
    (AutomationScript.resolve_value [] (.str "$\x7bmissing\x7d") =
        .ok (.str "$\x7bmissing\x7d")) ∧
    (∀ (vars : List (String × AutomationScript.PyVal)) (v : AutomationScript.PyVal),
        AutomationScript.isStrVal v = false →
        AutomationScript.resolve_value vars v = .ok v) := by
  refine ⟨rfl, rfl, rfl, ?_⟩
  intro vars v h
  cases v with
  | str s => simp [AutomationScript.isStrVal] at h
  | int n => rfl
  | bool b => rfl
  | list xs => rfl
  | dict es => rfl

/-- Witness for C8's non-string clause at a concrete value. -/
theorem c8_resolve_examples_witness :
    AutomationScript.resolve_value [] (.int 42) = .ok (.int 42) :=
  c8_resolve_examples.2.2.2 [] (.int 42) rfl

/-- C6 counterexample: resolving `$\x7ba[0]\x7d` with `a` bound to the
scalar `5` raises an uncaught `TypeError` (the index branch catches only
`ValueError, IndexError`), and `$\x7ba[1]\x7d` with `a` a dict raises an
uncaught `KeyError` — the placeholder is not left in place; the whole
resolution aborts. -/
theorem c6_resolve_raises_counterexample :
    (AutomationScript.resolve_value [("a", .int 5)] (.str "$\x7ba[0]\x7d") =
        .error .typeError) ∧
    (AutomationScript.resolve_value [("a", .dict [("b", .int 5)])]
        (.str "$\x7ba[1]\x7d") = .error .keyError) ∧
    AutomationScript.resolve_value [("a", .int 5)] (.str "$\x7ba[0]\x7d") ≠
      .ok (.str "$\x7ba[0]\x7d") := by
  refine ⟨rfl, rfl, ?_⟩
  intro h
  have e : AutomationScript.resolve_value [("a", .int 5)] (.str "$\x7ba[0]\x7d") =
      .error .typeError := rfl
  rw [e] at h
  exact Except.noConfusion h

/-- C6 as amended: the failure kinds whose exceptions the source does
catch — missing base name, non-integer index, out-of-range list index,
missing dict key, and keyed access on a non-dict value — leave the
placeholder's original text unchanged without raising, and other
placeholders in the same string still resolve; but an integer index
applied to a scalar (`TypeError`) or to a dict (`KeyError`) raises and
aborts the whole resolution. -/
theorem c6_failsoft_amended :
    (∀ (vars : List (String × AutomationScript.PyVal)) (expr : List Char)
        (base : List Char) (rest : List (List Char)),
        AutomationScript.splitParts expr = base :: rest →
        AutomationScript.assocLookup vars (String.mk base) = none →
        AutomationScript.replaceVar vars expr = .ok (AutomationScript.origOf expr)) ∧
    (∀ (orig : List Char) (v : AutomationScript.PyVal) (p : List Char)
        (ps : List (List Char)),
        p.getLast? = some ']' → AutomationScript.pyParseInt p.dropLast = none →
        AutomationScript.applyChain orig v (p :: ps) = .ok orig) ∧
    (∀ (orig : List Char) (xs : List AutomationScript.PyVal) (p : List Char)
        (ps : List (List Char)) (i : Int),
        p.getLast? = some ']' → AutomationScript.pyParseInt p.dropLast = some i →
        AutomationScript.pyIndex xs i = none →
        AutomationScript.applyChain orig (.list xs) (p :: ps) = .ok orig) ∧
    (∀ (orig : List Char) (es : List (String × AutomationScript.PyVal))
        (p : List Char) (ps : List (List Char)),
        p.getLast? ≠ some ']' →
        AutomationScript.assocLookup es (String.mk p) = none →
        AutomationScript.applyChain orig (.dict es) (p :: ps) = .ok orig) ∧
    (∀ (orig : List Char) (v : AutomationScript.PyVal) (p : List Char)
        (ps : List (List Char)),
        p.getLast? ≠ some ']' → AutomationScript.isDictVal v = false →
        AutomationScript.applyChain orig v (p :: ps) = .ok orig) ∧
    (AutomationScript.resolve_value [("b", .int 7)]
        (.str "$\x7bmissing\x7d and $\x7bb\x7d") =
      .ok (.str "$\x7bmissing\x7d and 7")) := by
  refine ⟨?_, ?_, ?_, ?_, ?_, rfl⟩
  · intro vars expr base rest hsplit hlook
    simp [AutomationScript.replaceVar, hsplit, hlook]
  · intro orig v p ps h1 h2
    simp [AutomationScript.applyChain, h1, h2]
  · intro orig xs p ps i h1 h2 h3
    simp [AutomationScript.applyChain, h1, h2, h3]
  · intro orig es p ps h1 h2
    simp [AutomationScript.applyChain, h1, h2]
  · intro orig v p ps h1 h2
    cases v with
    | dict es => simp [AutomationScript.isDictVal] at h2
    | str s => simp [AutomationScript.applyChain, h1]
    | int n => simp [AutomationScript.applyChain, h1]
    | bool b => simp [AutomationScript.applyChain, h1]
    | list xs => simp [AutomationScript.applyChain, h1]

/-- Witness for C6's amended fail-soft clauses at concrete inputs. -/
theorem c6_failsoft_amended_witness :
    AutomationScript.replaceVar [] ['m'] = .ok (AutomationScript.origOf ['m']) :=
  c6_failsoft_amended.1 [] ['m'] ['m'] [] rfl rfl

/-- C7 counterexample: `EventPlayer.start_playback` stores the supplied
speed without any clamp, so a speed of `100` is used as-is, outside
`[0.1, 10]`. -/
theorem c7_event_player_speed_unclamped :
    ((EventPlayer.start_playback idleEP (some 100)).2.speed = 100) ∧
    ¬ ((100 : ℚ) ≤ 10) := by
  refine ⟨rfl, by norm_num⟩

/-- C7 as amended: `InputPlayer` (core/player.py) clamps every speed it
is given — through `start_playback` and `set_speed` — into `[0.1, 10]`,
but `EventPlayer` (event_player.py) applies the caller's speed
unclamped. -/
theorem c7_clamp_amended :
    (∀ q : ℚ, 1 / 10 ≤ InputPlayer.clampSpeed q ∧ InputPlayer.clampSpeed q ≤ 10) ∧
    (∀ (s : InputPlayer.IPState) (q : ℚ),
        (InputPlayer.set_speed s q).speed = InputPlayer.clampSpeed q) ∧
    (∀ (s : InputPlayer.IPState) (q : ℚ),
        s.playing = false → s.events.isEmpty = false →
        (InputPlayer.start_playback s q).2.speed = InputPlayer.clampSpeed q) := by
  refine ⟨?_, ?_, ?_⟩
  · intro q
    exact ⟨le_max_left _ _, max_le (by norm_num) (min_le_left _ _)⟩
  · intro s q
    rfl
  · intro s q h1 h2
    simp [InputPlayer.start_playback, h1, h2]

/-- Witness for C7's amended start-path clause at a concrete state. -/
theorem c7_clamp_amended_witness :
    (InputPlayer.start_playback idleIP 100).2.speed = InputPlayer.clampSpeed 100 :=
  c7_clamp_amended.2.2 idleIP 100 rfl rfl

/-- C3 counterexample: for the event timestamps `[0, 1]` at speed `1` the
playback loop performs the single sleep `[1]`, which is not a slice of at
most `1/10` — the wait is one uninterruptible `time.sleep`, not sliced. -/
theorem c3_unsliced_wait_counterexample :
    EventPlayer.playbackSleeps 1 0 [0, 1] = [1] ∧ ¬ ((1 : ℚ) ≤ 1 / 10) := by
  refine ⟨?_, by norm_num⟩
  norm_num [EventPlayer.playbackSleeps, EventPlayer.waitSleeps]

/-- C3 as amended: between consecutive events the scheduler performs at
most one sleep, whose total duration is exactly
`max 0 ((t - lastTime) / speed)`; because it is a single sleep, a stop
request arriving during it is only observed afterwards. -/
theorem c3_single_sleep_amended :
    ∀ lastT t speed : ℚ,
      (EventPlayer.waitSleeps lastT t speed).length ≤ 1 ∧
      (EventPlayer.waitSleeps lastT t speed).sum = max 0 ((t - lastT) / speed) := by
  intro a t sp
  simp only [EventPlayer.waitSleeps]
  by_cases h : 0 < (t - a) / sp
  · rw [if_pos h, max_eq_right h.le]
    exact ⟨by simp, by simp⟩
  · rw [if_neg h, max_eq_left (not_lt.mp h)]
    exact ⟨by simp, by simp⟩

/-- C4 counterexample: stopping a playing session with a live playback
thread invokes `on_stop` twice — once from the playback thread's
`finally` block (run during `join`) and once from `stop_playback`
itself. -/
theorem c4_double_on_stop_counterexample :
    (EventPlayer.stop_playback playingEP).2.onStopCalls = 2 ∧ (2 : Nat) ≠ 1 := by
  refine ⟨rfl, by decide⟩

/-- C4 as amended: natural completion fires `on_stop` exactly once (in
the thread's `finally` block) and clears `playing`; ending the session
with `stop_playback` fires `on_stop` twice — once from the joined
thread's `finally` and once from `stop_playback` — while `playing` still
transitions to `false` once. -/
theorem c4_stop_callbacks_amended :
    (∀ s : EventPlayer.EPState,
        (EventPlayer.playbackFinally s).onStopCalls = s.onStopCalls + 1 ∧
        (EventPlayer.playbackFinally s).playing = false) ∧
    (∀ s : EventPlayer.EPState,
        s.playing = true → s.threadAlive = true →
        (EventPlayer.stop_playback s).2.onStopCalls = s.onStopCalls + 2 ∧
        (EventPlayer.stop_playback s).2.playing = false ∧
        (EventPlayer.stop_playback s).1 = true) := by
  refine ⟨fun s => ⟨rfl, rfl⟩, ?_⟩
  intro s h1 h2
  refine ⟨?_, ?_, ?_⟩ <;>
    simp [EventPlayer.stop_playback, EventPlayer.playbackFinally, h1, h2]

/-- Witness for C4's amended stop clause at a concrete session. -/
theorem c4_stop_callbacks_amended_witness :
    (EventPlayer.stop_playback playingEP).2.onStopCalls = playingEP.onStopCalls + 2 ∧
    (EventPlayer.stop_playback playingEP).2.playing = false ∧
    (EventPlayer.stop_playback playingEP).1 = true :=
  c4_stop_callbacks_amended.2 playingEP rfl rfl

/-- C5 counterexample: calling `run_script` while a session is active
(`running = true`, non-empty variable bag) is not rejected — the run
proceeds (it returns `True` after visiting step 0) and the active
session's variable bag is wiped. -/
theorem c5_run_script_no_busy_guard :
    ((AutomationScript.run_script busyScriptState 0 5).map
        (fun o => (o.ret, o.visited, o.final.vars)) = some (true, [0], [])) ∧
    busyScriptState.running = true ∧
    busyScriptState.vars = [("x", .int 1)] ∧
    ([("x", AutomationScript.PyVal.int 1)] : List (String × AutomationScript.PyVal)) ≠ [] := by
  refine ⟨rfl, rfl, rfl, by simp⟩

/-- C5 as amended: the schedulers do reject a busy start synchronously
and untouched — both `EventPlayer.start_playback` and
`InputPlayer.start_playback` return `False` with the state unchanged
while `playing` — but the interpreter's `run_script` performs no busy
check at all (it unconditionally reinitialises `current_step`, the
variable bag and the loop frames, as the counterexample shows). -/
theorem c5_busy_rejection_amended :
    (∀ (s : EventPlayer.EPState) (sp : Option ℚ),
        s.playing = true → EventPlayer.start_playback s sp = (false, s)) ∧
    (∀ (s : InputPlayer.IPState) (sp : ℚ),
        s.playing = true → InputPlayer.start_playback s sp = (false, s)) := by
  constructor
  · intro s sp h
    simp [EventPlayer.start_playback, h]
  · intro s sp h
    simp [InputPlayer.start_playback, h]

/-- Witness for C5's amended busy-rejection clauses at concrete states. -/
theorem c5_busy_rejection_amended_witness :
    EventPlayer.start_playback playingEP (some 2) = (false, playingEP) :=
  c5_busy_rejection_amended.1 playingEP (some 2) rfl

/-- C2 counterexample: on a condition step carrying `then_step = 2`,
`else_step = 3` and also `next_step = 4`, the branch evaluates to true
but the next executed index is `4`, not the `then_step` target `2`: the
generic success redirect `next_step` overrides the condition result. -/
theorem c2_next_step_overrides_condition :
    ((AutomationScript.run_script condNextState 0 10).map
        (fun o => (o.ret, o.visited)) = some (true, [0, 4])) ∧
    (4 : Int) ≠ 2 := by
  refine ⟨rfl, by decide⟩

/-- C2 as amended: on a condition step carrying `then_step = T` and
`else_step = F` but no (non-`None`) `next_step`, one loop iteration lands
the interpreter's current index exactly on `T` when the condition is true
and on `F` when it is false — the internal `target - 1` composed with the
loop's `+ 1` is exact — whatever `on_failure` the step carries (the
condition handler reports success, so `on_failure` is never consulted). -/
theorem c2_condition_branch_amended :
    ∀ (s : AutomationScript.ScriptState) (c : Bool) (T F : Int) (onF : Option Int),
      s.running = true → s.paused = false →
      AutomationScript.pyGet s.steps s.currentStep =
        some ⟨.condition c (some T) (some F), true, none, onF⟩ →
      AutomationScript.iter s =
        Sum.inr (some s.currentStep, { s with currentStep := if c then T else F }) := by
  intro s c T F onF hrun hp hget
  have hlt : s.currentStep < (s.steps.length : Int) := pyGet_lt _ _ _ hget
  unfold AutomationScript.iter
  rw [if_pos ⟨hrun, hlt⟩, if_neg (by simp [hp]), hget]
  cases c <;>
    simp [AutomationScript.execStep, AutomationScript.applyJump, sub_add_cancel]

/-- Witness for C2's amended branch clause at a concrete state. -/
theorem c2_condition_branch_amended_witness :
    AutomationScript.iter condPlainState =
      Sum.inr (some 0, { condPlainState with currentStep := 2 }) := by
  simpa using c2_condition_branch_amended condPlainState true 2 3 none rfl rfl rfl

/-- The two-state cycle the count-loop run (total `2`) falls into: from
the body step the run reaches the `end_loop` step, whose back-jump to
`start_step` composed with the loop's `+ 1` lands on `start_step + 1` —
the body again, never the loop-start step — so the counter stays at `1`
forever. -/
theorem countLoop_cycle :
    ∀ f : Nat,
      AutomationScript.runAux f countLoopBody = none ∧
      AutomationScript.runAux f countLoopAtEnd = none := by
  intro f
  induction f with
  | zero => exact ⟨rfl, rfl⟩
  | succ n ih =>
    constructor
    · have e : AutomationScript.runAux (n + 1) countLoopBody =
          Option.map (fun out => (out.1, out.2.1, (1 : Int) :: out.2.2))
            (AutomationScript.runAux n countLoopAtEnd) := rfl
      rw [e, ih.2]
      rfl
    · have e : AutomationScript.runAux (n + 1) countLoopAtEnd =
          Option.map (fun out => (out.1, out.2.1, (2 : Int) :: out.2.2))
            (AutomationScript.runAux n countLoopBody) := rfl
      rw [e, ih.1]
      rfl

/-- C1: the count-loop claim against the code.  For total `N = 2` (and
any larger `N`) the run never terminates, for any fuel: after the
`end_loop` back-jump the loop-start step is never revisited, so the
counter never advances.  For `N = 1` the body runs once and control
proceeds past the `end_loop` index, and for `N = 0` the body never runs —
those two cases match the claim; `N ≥ 2` contradicts it. -/
theorem c1_count_loop_diverges :
    (∀ fuel : Nat, AutomationScript.run_script (countLoopState 2) 0 fuel = none) ∧
    ((AutomationScript.run_script (countLoopState 1) 0 10).map
        (fun o => (o.ret, o.visited)) = some (true, [0, 1, 2])) ∧
    ((AutomationScript.run_script (countLoopState 0) 0 10).map
        (fun o => (o.ret, o.visited)) = some (true, [0])) := by
  refine ⟨?_, rfl, rfl⟩
  intro fuel
  cases fuel with
  | zero => rfl
  | succ n =>
    have e : AutomationScript.run_script (countLoopState 2) 0 (n + 1) =
        Option.map
          (fun out => (⟨out.1, { out.2.1 with running := false }, out.2.2, [out.1]⟩ :
            AutomationScript.RunOutcome))
          (Option.map (fun out => (out.1, out.2.1, (0 : Int) :: out.2.2))
            (AutomationScript.runAux n countLoopBody)) := rfl
    rw [e, (countLoop_cycle n).1]
    rfl

/-- Interpreter invariant behind C9: from a state whose remaining
distance to the end of an all-sequential program is `k`, the run loop
needs exactly `k` more handler executions — at the consecutive indices
`n - k, ..., n - 1` — and then exits successfully with the cursor at
`n`. -/
theorem runAux_seq :
    ∀ (k : Nat) (s : AutomationScript.ScriptState),
      s.running = true → s.paused = false → s.steps.all isSeqStep = true →
      k ≤ s.steps.length →
      s.currentStep = ((s.steps.length - k : Nat) : Int) →
      AutomationScript.runAux (k + 1) s =
        some (true, { s with currentStep := (s.steps.length : Int) },
          (List.range' (s.steps.length - k) k).map (fun m => (m : Int))) := by
  intro k
  induction k with
  | zero =>
    intro s hrun hp hall hk hcur
    have hcur' : s.currentStep = (s.steps.length : Int) := by simpa using hcur
    have hiter : AutomationScript.iter s = Sum.inl (true, s) := by
      unfold AutomationScript.iter
      rw [if_neg]
      intro hcontra
      rw [hcur'] at hcontra
      exact lt_irrefl _ hcontra.2
    simp only [AutomationScript.runAux, hiter]
    rw [← hcur']
    rfl
  | succ k ih =>
    intro s hrun hp hall hk1 hcur
    have hmlt : s.steps.length - (k + 1) < s.steps.length := by omega
    have hg : s.steps.get? (s.steps.length - (k + 1)) =
        some (s.steps.get ⟨s.steps.length - (k + 1), hmlt⟩) := List.get?_eq_get hmlt
    have hgetInt : AutomationScript.pyGet s.steps s.currentStep =
        some (s.steps.get ⟨s.steps.length - (k + 1), hmlt⟩) := by
      rw [hcur, pyGet_natCast _ _ hmlt]
      exact hg
    have hseq : isSeqStep (s.steps.get ⟨s.steps.length - (k + 1), hmlt⟩) = true :=
      List.all_eq_true.mp hall _ (List.get_mem _ _ _)
    have hiter := iter_seq s _ hrun hp hgetInt hseq
    have hnext : ({ s with currentStep := s.currentStep + 1 } :
        AutomationScript.ScriptState).currentStep =
        ((s.steps.length - k : Nat) : Int) := by
      show s.currentStep + 1 = ((s.steps.length - k : Nat) : Int)
      rw [hcur]
      omega
    have hih := ih { s with currentStep := s.currentStep + 1 } hrun hp hall
      (by show k ≤ s.steps.length; omega) hnext
    simp only at hih
    have estep : AutomationScript.runAux (k + 1 + 1) s =
        Option.map (fun out => (out.1, out.2.1, s.currentStep :: out.2.2))
          (AutomationScript.runAux (k + 1) { s with currentStep := s.currentStep + 1 }) := by
      conv_lhs => rw [AutomationScript.runAux]
      rw [hiter]
      rfl
    rw [estep, hih]
    have hrange : List.range' (s.steps.length - (k + 1)) (k + 1) =
        (s.steps.length - (k + 1)) :: List.range' (s.steps.length - k) k := by
      have h2 : s.steps.length - (k + 1) + 1 = s.steps.length - k := by omega
      rw [List.range'_succ, h2]
    simp [hrange, hcur]

/-- C9: on a non-empty program in which every step is an enabled plain
action with purely sequential jump policy (no condition, loop,
`next_step` or `on_failure`), `run_script` started at index 0 executes
indices `0, ..., n-1` exactly once each, in increasing order, terminates
(within fuel `n + 1`), and reports success. -/
theorem c9_sequential_visits :
    ∀ s0 : AutomationScript.ScriptState,
      s0.steps ≠ [] → s0.steps.all isSeqStep = true →
      (AutomationScript.run_script s0 0 (s0.steps.length + 1)).map
          (fun o => (o.ret, o.visited, o.endCalls)) =
        some (true, (List.range s0.steps.length).map (fun m => (m : Int)), [true]) := by
  intro s0 hne hall
  have hempty : s0.steps.isEmpty = false := by
    cases hs : s0.steps with
    | nil => exact absurd hs hne
    | cons a l => rfl
  have h0 : ({ s0 with running := true, paused := false, currentStep := 0,
                       vars := [], loops := [] } :
      AutomationScript.ScriptState).currentStep =
      ((s0.steps.length - s0.steps.length : Nat) : Int) := by
    simp
  have := runAux_seq s0.steps.length
    { s0 with running := true, paused := false, currentStep := 0, vars := [], loops := [] }
    rfl rfl hall (le_refl _) h0
  unfold AutomationScript.run_script
  rw [hempty]
  simp only [Bool.false_eq_true, if_false, this, Option.map_some]
  rw [Nat.sub_self, ← List.range_eq_range']
  simp

/-- Witness for C9 on a concrete two-step sequential program. -/
theorem c9_sequential_visits_witness :
    (AutomationScript.run_script seqTwoState 0 3).map
        (fun o => (o.ret, o.visited, o.endCalls)) =
      some (true, [0, 1], [true]) := by
  simpa using c9_sequential_visits seqTwoState (by simp [seqTwoState]) rfl
